import Mathlib

/-!
Verification of the `interception-rs` wrapper layer (src/lib.rs, src/bounded_slice.rs)
against its natural-language specification.

Shallow embedding conventions:
* `u16`/`u32` fields are `Nat` (well-formedness predicates bound them where needed);
  `i16`/`i32` fields are `Int` (copied verbatim by every modelled operation).
* Rust `Result<T, &'static str>` becomes `Except String T`.
* The opaque native driver (interception-sys) is modelled by an `Env` structure of
  uninterpreted functions; wrapper operations take the `Env` as an argument.
* The bitflags-generated `from_bits` is modelled by a single function parameterised
  by the type's all-known-bits mask, exactly as the macro expands per type:
  `from_bits(bits) = if bits & !all == 0 then Some(bits) else None` with `!` the
  16-bit complement.
-/

/- Bits of `MouseState` (src/lib.rs lines 30-53). `MOVE` is the MouseFilter-only bit. -/
namespace MouseState

def LEFT_BUTTON_DOWN : Nat := 1
def LEFT_BUTTON_UP : Nat := 2
def RIGHT_BUTTON_DOWN : Nat := 4
def RIGHT_BUTTON_UP : Nat := 8
def MIDDLE_BUTTON_DOWN : Nat := 16
def MIDDLE_BUTTON_UP : Nat := 32
def BUTTON_4_DOWN : Nat := 64
def BUTTON_4_UP : Nat := 128
def BUTTON_5_DOWN : Nat := 256
def BUTTON_5_UP : Nat := 512
def WHEEL : Nat := 1024
def HWHEEL : Nat := 2048
def MOVE : Nat := 4096

/-- Union of all defined `MouseState` bits (what bitflags calls `all()`). -/
def mask : Nat :=
  LEFT_BUTTON_DOWN ||| LEFT_BUTTON_UP ||| RIGHT_BUTTON_DOWN ||| RIGHT_BUTTON_UP |||
  MIDDLE_BUTTON_DOWN ||| MIDDLE_BUTTON_UP ||| BUTTON_4_DOWN ||| BUTTON_4_UP |||
  BUTTON_5_DOWN ||| BUTTON_5_UP ||| WHEEL ||| HWHEEL ||| MOVE

end MouseState

/- Bits of `MouseFlags` (src/lib.rs lines 57-69). `MOVE_RELATIVE` is the zero value. -/
namespace MouseFlags

def MOVE_RELATIVE : Nat := 0
def MOVE_ABSOLUTE : Nat := 1
def VIRTUAL_DESKTOP : Nat := 2
def ATTRIBUTES_CHANGED : Nat := 4
def MOVE_NO_COALESCE : Nat := 8
def TERMSRV_SRC_SHADOW : Nat := 256

/-- Union of all defined `MouseFlags` bits. -/
def mask : Nat :=
  MOVE_RELATIVE ||| MOVE_ABSOLUTE ||| VIRTUAL_DESKTOP ||| ATTRIBUTES_CHANGED |||
  MOVE_NO_COALESCE ||| TERMSRV_SRC_SHADOW

end MouseFlags

/- Bits of `KeyState` (src/lib.rs lines 71-83). `DOWN` is the zero value and `E1 = 3`
overlaps the `UP` and `E0` bits, so the union of defined bits is 59 and, notably,
bit value 4 is not a defined `KeyState` bit. -/
namespace KeyState

def DOWN : Nat := 0
def UP : Nat := 1
def E0 : Nat := 2
def E1 : Nat := 3
def TERMSRV_SET_LED : Nat := 8
def TERMSRV_SHADOW : Nat := 16
def TERMSRV_VKPACKET : Nat := 32

/-- Union of all defined `KeyState` bits. -/
def mask : Nat :=
  DOWN ||| UP ||| E0 ||| E1 ||| TERMSRV_SET_LED ||| TERMSRV_SHADOW ||| TERMSRV_VKPACKET

end KeyState

/- Bits of `KeyFilter` (src/lib.rs lines 85-97). -/
namespace KeyFilter

def DOWN : Nat := 1
def UP : Nat := 2
def E0 : Nat := 4
def E1 : Nat := 8
def TERMSRV_SET_LED : Nat := 16
def TERMSRV_SHADOW : Nat := 32
def TERMSRV_VKPACKET : Nat := 64

/-- Union of all defined `KeyFilter` bits. -/
def mask : Nat :=
  DOWN ||| UP ||| E0 ||| E1 ||| TERMSRV_SET_LED ||| TERMSRV_SHADOW ||| TERMSRV_VKPACKET

end KeyFilter

/-- `MouseFilter` is a type alias of `MouseState` (src/lib.rs line 55), so it shares
its defined-bits mask. -/
def MouseFilter.mask : Nat := MouseState.mask

/-- The 16-bit complement `!n` on a `u16` value, as used by bitflags inside
`from_bits`. -/
def u16Not (n : Nat) : Nat := 65535 ^^^ n

/-- The bitflags-generated `from_bits` for a type whose union of defined bits is
`mask`: accepts `bits` iff it has no bit outside `mask`, returning it unchanged. -/
def fromBits (mask bits : Nat) : Option Nat :=
  if bits &&& u16Not mask = 0 then some bits else none

/-- Native mouse record `raw::InterceptionMouseStroke`
{state: u16, flags: u16, rolling: i16, x: i32, y: i32, information: u32}. -/
structure InterceptionMouseStroke where
  state : Nat
  flags : Nat
  rolling : Int
  x : Int
  y : Int
  information : Nat
deriving DecidableEq, Repr

/-- Native keyboard record `raw::InterceptionKeyStroke`
{code: u16, state: u16, information: u32}. -/
structure InterceptionKeyStroke where
  code : Nat
  state : Nat
  information : Nat
deriving DecidableEq, Repr

/-- Field-width well-formedness of a native mouse record: unsigned fields fit their
width, signed fields fit `i16`/`i32`. -/
def InterceptionMouseStroke.wf (r : InterceptionMouseStroke) : Prop :=
  r.state < 65536 ∧ r.flags < 65536 ∧
  -32768 ≤ r.rolling ∧ r.rolling < 32768 ∧
  -2147483648 ≤ r.x ∧ r.x < 2147483648 ∧
  -2147483648 ≤ r.y ∧ r.y < 2147483648 ∧
  r.information < 4294967296

/-- Field-width well-formedness of a native keyboard record. -/
def InterceptionKeyStroke.wf (r : InterceptionKeyStroke) : Prop :=
  r.code < 65536 ∧ r.state < 65536 ∧ r.information < 4294967296

/-- Modelled from the spec: the scan-code table (`src/scancode.rs`, declared by
`pub mod scancode;` in src/lib.rs but absent from the sources) is, per the spec,
"an enumeration mapping native numeric key codes to symbolic key identities"
with `Esc` as the defined fallback for numeric codes outside the table. We model
a symbolic scan code by its native numeric value (`ScanCode` is `repr(u16)` and
is encoded with `code as u16`), and the known table as the classic PS/2 set-1
make-code range 0x01-0x58 containing `Esc = 0x01`. The claims settled against
this model depend only on `Esc` being in the table and on the table not covering
all of `u16`. -/
def scanCodeKnown (c : Nat) : Bool := 1 ≤ c && c ≤ 88

/-- Modelled from the spec: the fallback symbolic code `ScanCode::Esc`, whose
native numeric value is 0x01. -/
def ScanCode.Esc : Nat := 1

/-- Modelled from the spec: `ScanCode::try_from(u16)` succeeds exactly on codes in
the known table, yielding the symbol with that numeric value. -/
def ScanCode.tryFrom (c : Nat) : Option Nat :=
  if scanCodeKnown c then some c else none

/-- The `Stroke` tagged union (src/lib.rs lines 99-115). The keyboard `code` field
holds the native numeric value of the symbolic scan code. -/
inductive Stroke where
  | Mouse (state : Nat) (flags : Nat) (rolling : Int) (x : Int) (y : Int)
      (information : Nat)
  | Keyboard (code : Nat) (state : Nat) (information : Nat)
deriving DecidableEq, Repr

/-- `TryFrom<raw::InterceptionMouseStroke> for Stroke` (src/lib.rs lines 117-140):
validate state against `MouseState`, flags against `MouseFlags`, then copy the
numeric fields verbatim. -/
def Stroke.tryFromMouse (raw : InterceptionMouseStroke) : Except String Stroke :=
  match fromBits MouseState.mask raw.state with
  | none => .error "Extra bits in raw mouse state"
  | some state =>
    match fromBits MouseFlags.mask raw.flags with
    | none => .error "Extra bits in raw mouse flags"
    | some flags =>
      .ok (.Mouse state flags raw.rolling raw.x raw.y raw.information)

/-- `TryFrom<raw::InterceptionKeyStroke> for Stroke` (src/lib.rs lines 142-162):
validate state against `KeyState`; map the code through `ScanCode::try_from`,
substituting `ScanCode::Esc` when the lookup fails. -/
def Stroke.tryFromKey (raw : InterceptionKeyStroke) : Except String Stroke :=
  match fromBits KeyState.mask raw.state with
  | none => .error "Extra bits in raw keyboard state"
  | some state =>
    let code :=
      match ScanCode.tryFrom raw.code with
      | some code => code
      | none => ScanCode.Esc
    .ok (.Keyboard code state raw.information)

/-- `TryFrom<Stroke> for raw::InterceptionMouseStroke` (src/lib.rs lines 164-189):
a mouse stroke re-flattens to its raw fields; a keyboard stroke is a class
mismatch. -/
def rawMouseOfStroke : Stroke → Except String InterceptionMouseStroke
  | .Mouse state flags rolling x y information =>
    .ok ⟨state, flags, rolling, x, y, information⟩
  | _ => .error "Stroke must be a mouse stroke"

/-- `TryFrom<Stroke> for raw::InterceptionKeyStroke` (src/lib.rs lines 191-210):
a keyboard stroke re-flattens (`code as u16`); a mouse stroke is a class
mismatch. -/
def rawKeyOfStroke : Stroke → Except String InterceptionKeyStroke
  | .Keyboard code state information => .ok ⟨code, state, information⟩
  | _ => .error "Stroke must be a keyboard stroke"

instance {e a : Type} [DecidableEq e] [DecidableEq a] : DecidableEq (Except e a) :=
  fun x y =>
    match x, y with
    | .error u, .error v =>
      if h : u = v then .isTrue (by rw [h]) else .isFalse (by simp [h])
    | .error _, .ok _ => .isFalse (by simp)
    | .ok _, .error _ => .isFalse (by simp)
    | .ok u, .ok v =>
      if h : u = v then .isTrue (by rw [h]) else .isFalse (by simp [h])

/-- Decode-then-encode on a native mouse record. -/
def mouseRoundtrip (raw : InterceptionMouseStroke) : Except String InterceptionMouseStroke :=
  (Stroke.tryFromMouse raw).bind rawMouseOfStroke

/-- Decode-then-encode on a native keyboard record. -/
def keyRoundtrip (raw : InterceptionKeyStroke) : Except String InterceptionKeyStroke :=
  (Stroke.tryFromKey raw).bind rawKeyOfStroke

/-- Classification of `Stroke` variants: true on `Stroke::Mouse`. -/
def Stroke.isMouseStroke : Stroke → Bool
  | .Mouse _ _ _ _ _ _ => true
  | .Keyboard _ _ _ => false

/-- Classification of `Stroke` variants: true on `Stroke::Keyboard`. -/
def Stroke.isKeyStroke : Stroke → Bool
  | .Mouse _ _ _ _ _ _ => false
  | .Keyboard _ _ _ => true

/-- The opaque native driver (interception-sys) together with one created context,
modelled as uninterpreted functions. `is_mouse`/`is_keyboard`/`is_invalid` are
pure pass-throughs to the driver, so they appear here as arbitrary predicates on
device ids. Each native call that reads or writes through a pointer/length pair
is modelled by a function from its scalar arguments to the list it would read
or produce. -/
structure Env where
  isMouse : Int → Bool
  isKeyboard : Int → Bool
  isInvalid : Int → Bool
  nativeGetFilter : Int → Nat
  nativeWaitWithTimeout : Nat → Int
  nativeSendMouse : Int → List InterceptionMouseStroke → Int
  nativeSendKey : Int → List InterceptionKeyStroke → Int
  nativeReceiveMouse : Int → Nat → List InterceptionMouseStroke
  nativeReceiveKey : Int → Nat → List InterceptionKeyStroke
  hardwareIdLen : Int → Nat
  hardwareIdUnits : Int → List Nat

/-- The encoding loop of `Interception::send_internal` (src/lib.rs lines 319-335):
each stroke that encodes successfully is appended at the next free slot of the
raw array (so survivors sit contiguously, in order); failures are skipped. The
raw prefix of length `len` passed to `interception_send` is exactly this list. -/
def encodedRawStrokes (encode : Stroke → Except String T) (strokes : List Stroke) :
    List T :=
  strokes.filterMap fun s => (encode s).toOption

/-- `Interception::send` (src/lib.rs lines 305-317): dispatch on the device class,
encode the matching strokes, hand them to the native send, and return whatever
count the native call reports; a device of neither class returns 0. -/
def send (env : Env) (device : Int) (strokes : List Stroke) : Int :=
  if env.isMouse device then
    env.nativeSendMouse device (encodedRawStrokes rawMouseOfStroke strokes)
  else if env.isKeyboard device then
    env.nativeSendKey device (encodedRawStrokes rawKeyOfStroke strokes)
  else 0

/-- The decode loop of `Interception::receive_internal` (src/lib.rs lines 381-389):
walk the records the native receive produced, writing each successfully decoded
stroke at index `num_valid` of the caller's buffer and bumping `num_valid`;
records that fail to decode are dropped without advancing the index. Returns
the final buffer and `num_valid`. -/
def receiveLoop (decode : T → Except String Stroke) :
    List T → List Stroke → Nat → List Stroke × Nat
  | [], buf, numValid => (buf, numValid)
  | r :: rest, buf, numValid =>
    match decode r with
    | .ok s => receiveLoop decode rest (buf.set numValid s) (numValid + 1)
    | .error _ => receiveLoop decode rest buf numValid

/-- `Interception::receive` (src/lib.rs lines 337-390): dispatch on the device
class, run the native receive into a scratch array of the buffer's capacity,
decode and compact into the caller's buffer, and return the bounded prefix of
the decoded count (`buffer.get_prefix(len)`); a device of neither class yields
the empty prefix. -/
def receive (env : Env) (device : Int) (buf : List Stroke) : List Stroke :=
  if env.isMouse device then
    let p := receiveLoop Stroke.tryFromMouse (env.nativeReceiveMouse device buf.length) buf 0
    p.1.take p.2
  else if env.isKeyboard device then
    let p := receiveLoop Stroke.tryFromKey (env.nativeReceiveKey device buf.length) buf 0
    p.1.take p.2
  else buf.take 0

/-- The `Filter` enum (src/lib.rs lines 23-26), carrying the raw bits of the
variant's bitmask (`empty()` is 0). Named `DeviceFilter` here because `Filter`
is taken by Mathlib. -/
inductive DeviceFilter where
  | MouseFilter (bits : Nat)
  | KeyFilter (bits : Nat)
deriving DecidableEq, Repr

/-- `Interception::get_filter` (src/lib.rs lines 254-275): an invalid device yields
the empty key filter before the raw filter is ever queried; otherwise the raw
bits are interpreted per device class, falling back to the empty filter of that
class when they contain unknown bits. -/
def getFilter (env : Env) (device : Int) : DeviceFilter :=
  if env.isInvalid device then .KeyFilter 0
  else if env.isMouse device then
    .MouseFilter
      (match fromBits MouseFilter.mask (env.nativeGetFilter device) with
        | some filter => filter
        | none => 0)
  else
    .KeyFilter
      (match fromBits KeyFilter.mask (env.nativeGetFilter device) with
        | some filter => filter
        | none => 0)

/-- `std::time::Duration`: whole seconds plus a nanosecond part below 10^9. -/
structure Duration where
  secs : Nat
  nanos : Nat
deriving DecidableEq, Repr

/-- `Duration::as_millis`: the total number of whole milliseconds. -/
def Duration.asMillis (d : Duration) : Nat := d.secs * 1000 + d.nanos / 1000000

/-- `u32::MAX`. -/
def u32MAX : Nat := 4294967295

/-- The timeout computation of `Interception::wait_with_timeout` (src/lib.rs lines
296-303): `u32::try_from(duration.as_millis())` succeeds exactly when the count
fits in `u32`; on overflow the code substitutes `u32::MAX`. -/
def timeoutMillis (d : Duration) : Nat :=
  if d.asMillis ≤ u32MAX then d.asMillis else u32MAX

/-- `Interception::wait_with_timeout` itself: call the native wait with the
(possibly clamped) millisecond count. -/
def waitWithTimeout (env : Env) (d : Duration) : Int :=
  env.nativeWaitWithTimeout (timeoutMillis d)

/-- `<[T; SIZE] as BoundedSliceSource>::get_prefix` (src/bounded_slice.rs lines
25-28): build the bounded view over the first `len` elements of the backing
array. The slice expression `&self[..len]` panics when `len` exceeds the
array's size, modelled by `none`; otherwise the view is the length-`len`
prefix. -/
def prefixView (arr : List T) (len : Nat) : Option (List T) :=
  if len ≤ arr.length then some (arr.take len) else none

/-- `std::char::decode_utf16` on a list of 16-bit units: a non-surrogate unit
decodes to itself; a high surrogate followed by a low surrogate combines into a
supplementary code point, consuming both; any other surrogate is ill-formed
(`none`), consuming one unit. -/
def decodeUtf16 : List Nat → List (Option Nat)
  | [] => []
  | [u] => if u < 0xD800 ∨ 0xDFFF < u then [some u] else [none]
  | u :: v :: rest =>
    if u < 0xD800 ∨ 0xDFFF < u then some u :: decodeUtf16 (v :: rest)
    else if 0xDC00 ≤ u then none :: decodeUtf16 (v :: rest)
    else if 0xDC00 ≤ v ∧ v ≤ 0xDFFF then
      some (0x10000 + ((u - 0xD800) * 0x400 + (v - 0xDC00))) :: decodeUtf16 rest
    else none :: decodeUtf16 (v :: rest)

/-- `.map(|r| r.unwrap_or('�'))`: each ill-formed unit becomes U+FFFD. -/
def replaceIllFormed (r : Option Nat) : Nat := r.getD 0xFFFD

/-- The number of UTF-16 code units needed for one scalar value. -/
def utf16Len (c : Nat) : Nat := if 0x10000 ≤ c then 2 else 1

/-- The number of UTF-16 code units needed for a decoded text. -/
def utf16StrLen (s : List Nat) : Nat := (s.map utf16Len).sum

/-- `Interception::get_hardware_id` (src/lib.rs lines 392-406): the native call
reports a byte length into the 512-unit scratch buffer; zero bytes yields
`None`, otherwise the first `len / 2` code units are decoded as UTF-16 with
replacement. The resulting `String` is modelled as its list of code points. -/
def getHardwareId (env : Env) (device : Int) : Option (List Nat) :=
  let len := env.hardwareIdLen device
  if len = 0 then none
  else
    some (((decodeUtf16 ((env.hardwareIdUnits device).take (len / 2)))).map replaceIllFormed)

/-- Re-view a raw mouse record as the mouse stroke carrying the same fields
(used to state that the records passed to the native send are exactly the
mouse-variant strokes, in order). -/
def strokeOfRawMouse (r : InterceptionMouseStroke) : Stroke :=
  .Mouse r.state r.flags r.rolling r.x r.y r.information

/-- Re-view a raw keyboard record as the keyboard stroke carrying the same
fields. -/
def strokeOfRawKey (r : InterceptionKeyStroke) : Stroke :=
  .Keyboard r.code r.state r.information

/-- The strokes that survive decoding a list of native records, in their
original relative order. -/
def decodedStrokes (decode : T → Except String Stroke) (records : List T) :
    List Stroke :=
  records.filterMap fun r => (decode r).toOption

/-- A concrete driver instantiation used by the witness theorems: device 1
classifies as a mouse, device 2 as a keyboard, device 0 as invalid; the raw
filter query reports the unknown bit 4096; the native waits and sends echo
their numeric argument; the native receives produce fixed record lists whose
middle record is malformed; the hardware-id query reports 10 bytes on device 2
whose buffer starts with a BMP unit, a surrogate pair, a lone surrogate and
another BMP unit. -/
def sampleEnv : Env :=
  ⟨fun d => d == 1, fun d => d == 2, fun d => d == 0,
   fun _ => 4096,
   fun millis => (millis : Int),
   fun _ raws => (raws.length : Int),
   fun _ raws => (raws.length : Int),
   fun _ _ => [⟨1, 1, 0, 2, 3, 4⟩, ⟨8192, 0, 0, 0, 0, 0⟩, ⟨2, 0, -1, 5, 6, 7⟩],
   fun _ _ => [⟨30, 0, 1⟩, ⟨30, 4, 2⟩, ⟨99, 1, 3⟩],
   fun d => if d == 2 then 10 else 0,
   fun _ => [72, 0xD834, 0xDD1E, 0xD800, 33] ++ List.replicate 507 0⟩

/-! ### Helper lemmas -/

theorem utf16StrLen_cons (c : Nat) (s : List Nat) :
    utf16StrLen (c :: s) = utf16Len c + utf16StrLen s := by
  simp [utf16StrLen]

theorem decodeUtf16_pair (u v : Nat) (rest : List Nat)
    (hu : ¬(u < 0xD800 ∨ 0xDFFF < u)) (hu2 : ¬0xDC00 ≤ u)
    (hv : 0xDC00 ≤ v ∧ v ≤ 0xDFFF) :
    decodeUtf16 (u :: v :: rest) =
      some (0x10000 + ((u - 0xD800) * 0x400 + (v - 0xDC00))) :: decodeUtf16 rest := by
  rw [decodeUtf16, if_neg hu, if_neg hu2, if_pos hv]

theorem utf16Len_replace_pair (x : Nat) :
    utf16Len (replaceIllFormed (some (0x10000 + x))) = 2 := by
  simp [replaceIllFormed, utf16Len]

theorem utf16Len_replace_bmp (u : Nat) (hu16 : u < 65536) :
    utf16Len (replaceIllFormed (some u)) = 1 := by
  simp [replaceIllFormed, utf16Len]
  omega

theorem utf16Len_replace_illFormed : utf16Len (replaceIllFormed none) = 1 := by
  simp [replaceIllFormed, utf16Len]

/-- UTF-16 decoding with replacement preserves the code-unit count: a BMP unit
and a replaced ill-formed unit each contribute one unit, a combined surrogate
pair contributes two. -/
theorem utf16StrLen_decodeUtf16 (l : List Nat) (h : ∀ u ∈ l, u < 65536) :
    utf16StrLen ((decodeUtf16 l).map replaceIllFormed) = l.length := by
  induction l using decodeUtf16.induct with
  | case1 => rw [decodeUtf16]; rfl
  | case2 u hu =>
    rw [decodeUtf16, if_pos hu, List.map_cons, utf16StrLen_cons,
      utf16Len_replace_bmp u (h u (by simp))]
    rfl
  | case3 u hu =>
    rw [decodeUtf16, if_neg hu, List.map_cons, utf16StrLen_cons, utf16Len_replace_illFormed]
    rfl
  | case4 u v rest hu ih =>
    have hrec := ih (fun x hx => h x (List.mem_cons_of_mem u hx))
    rw [decodeUtf16, if_pos hu, List.map_cons, utf16StrLen_cons, hrec,
      utf16Len_replace_bmp u (h u (by simp))]
    simp only [List.length_cons]
    omega
  | case5 u v rest hu hu2 ih =>
    have hrec := ih (fun x hx => h x (List.mem_cons_of_mem u hx))
    rw [decodeUtf16, if_neg hu, if_pos hu2, List.map_cons, utf16StrLen_cons, hrec,
      utf16Len_replace_illFormed]
    simp only [List.length_cons]
    omega
  | case6 u v rest hu hu2 hv ih =>
    have hrec := ih (fun x hx => h x (List.mem_cons_of_mem u (List.mem_cons_of_mem v hx)))
    rw [decodeUtf16_pair u v rest hu hu2 hv, List.map_cons, utf16StrLen_cons, hrec,
      utf16Len_replace_pair]
    simp only [List.length_cons]
    omega
  | case7 u v rest hu hu2 hv ih =>
    have hrec := ih (fun x hx => h x (List.mem_cons_of_mem u hx))
    rw [decodeUtf16, if_neg hu, if_neg hu2, if_neg hv, List.map_cons, utf16StrLen_cons,
      hrec, utf16Len_replace_illFormed]
    simp only [List.length_cons]
    omega

/-- Setting index `n` and taking `n + 1` elements appends the new element to the
unchanged prefix of length `n`. -/
theorem take_succ_set (l : List T) (n : Nat) (a : T) (h : n < l.length) :
    (l.set n a).take (n + 1) = l.take n ++ [a] := by
  induction l generalizing n with
  | nil => simp at h
  | cons x xs ih =>
    cases n with
    | zero => simp
    | succ m =>
      simp only [List.set_cons_succ, List.take_succ_cons, List.cons_append]
      rw [ih m (by simpa using h)]

theorem decodedStrokes_nil (decode : T → Except String Stroke) :
    decodedStrokes decode [] = [] := rfl

theorem decodedStrokes_cons_ok (decode : T → Except String Stroke) (r : T) (rest : List T)
    (s : Stroke) (hd : decode r = .ok s) :
    decodedStrokes decode (r :: rest) = s :: decodedStrokes decode rest := by
  simp [decodedStrokes, List.filterMap_cons, hd, Except.toOption]

theorem decodedStrokes_cons_error (decode : T → Except String Stroke) (r : T)
    (rest : List T) (e : String) (hd : decode r = .error e) :
    decodedStrokes decode (r :: rest) = decodedStrokes decode rest := by
  simp [decodedStrokes, List.filterMap_cons, hd, Except.toOption]

/-- The number of surviving strokes equals the number of records that decode
successfully. -/
theorem length_decodedStrokes (decode : T → Except String Stroke) (records : List T) :
    (decodedStrokes decode records).length =
      records.countP fun r => (decode r).toOption.isSome := by
  induction records with
  | nil => rfl
  | cons r rest ih =>
    cases hd : decode r with
    | ok s =>
      rw [decodedStrokes_cons_ok decode r rest s hd]
      simp [List.countP_cons, hd, Except.toOption, ih]
    | error e =>
      rw [decodedStrokes_cons_error decode r rest e hd]
      simp [List.countP_cons, hd, Except.toOption, ih]

/-- What the decode loop does: it fills the buffer from index `numValid` on with
the surviving strokes, in order, and returns the count of slots now filled.
Requires the buffer to have room, which the native receive's contract
(`num_read ≤ capacity`) guarantees at the call site. -/
theorem receiveLoop_spec (decode : T → Except String Stroke) (records : List T) :
    ∀ (buf : List Stroke) (numValid : Nat),
      numValid + (decodedStrokes decode records).length ≤ buf.length →
      (receiveLoop decode records buf numValid).2 =
        numValid + (decodedStrokes decode records).length ∧
      (receiveLoop decode records buf numValid).1.take
          (receiveLoop decode records buf numValid).2 =
        buf.take numValid ++ decodedStrokes decode records := by
  induction records with
  | nil =>
    intro buf n h
    simp [receiveLoop, decodedStrokes]
  | cons r rest ih =>
    intro buf n h
    cases hd : decode r with
    | ok s =>
      rw [decodedStrokes_cons_ok decode r rest s hd] at h ⊢
      have hn : n < buf.length := by simp at h; omega
      have hih := ih (buf.set n s) (n + 1)
        (by rw [List.length_set]; simp at h ⊢; omega)
      simp only [receiveLoop, hd]
      refine ⟨by rw [hih.1, List.length_cons]; omega, ?_⟩
      rw [hih.2, take_succ_set buf n s hn, List.append_assoc, List.singleton_append]
    | error e =>
      rw [decodedStrokes_cons_error decode r rest e hd] at h ⊢
      have hih := ih buf n h
      simp only [receiveLoop, hd]
      exact hih

theorem encodedRawStrokes_cons_ok (encode : Stroke → Except String T) (s : Stroke)
    (rest : List Stroke) (r : T) (h : encode s = .ok r) :
    encodedRawStrokes encode (s :: rest) = r :: encodedRawStrokes encode rest := by
  simp [encodedRawStrokes, List.filterMap_cons, h, Except.toOption]

theorem encodedRawStrokes_cons_error (encode : Stroke → Except String T) (s : Stroke)
    (rest : List Stroke) (e : String) (h : encode s = .error e) :
    encodedRawStrokes encode (s :: rest) = encodedRawStrokes encode rest := by
  simp [encodedRawStrokes, List.filterMap_cons, h, Except.toOption]

/-- The raw records handed to the native mouse send, re-viewed as strokes, are
exactly the mouse-variant strokes of the input, in their original order. -/
theorem encodedRaw_mouse_view (strokes : List Stroke) :
    (encodedRawStrokes rawMouseOfStroke strokes).map strokeOfRawMouse =
      strokes.filter Stroke.isMouseStroke := by
  induction strokes with
  | nil => rfl
  | cons s rest ih =>
    cases s with
    | Mouse state flags rolling x y information =>
      rw [encodedRawStrokes_cons_ok rawMouseOfStroke
        (.Mouse state flags rolling x y information) rest
        ⟨state, flags, rolling, x, y, information⟩ rfl, List.map_cons, ih]
      simp [strokeOfRawMouse, List.filter_cons, Stroke.isMouseStroke]
    | Keyboard code state information =>
      rw [encodedRawStrokes_cons_error rawMouseOfStroke
        (.Keyboard code state information) rest "Stroke must be a mouse stroke" rfl, ih]
      simp [List.filter_cons, Stroke.isMouseStroke]

/-- The raw records handed to the native keyboard send, re-viewed as strokes, are
exactly the keyboard-variant strokes of the input, in their original order. -/
theorem encodedRaw_key_view (strokes : List Stroke) :
    (encodedRawStrokes rawKeyOfStroke strokes).map strokeOfRawKey =
      strokes.filter Stroke.isKeyStroke := by
  induction strokes with
  | nil => rfl
  | cons s rest ih =>
    cases s with
    | Mouse state flags rolling x y information =>
      rw [encodedRawStrokes_cons_error rawKeyOfStroke
        (.Mouse state flags rolling x y information) rest
        "Stroke must be a keyboard stroke" rfl, ih]
      simp [List.filter_cons, Stroke.isKeyStroke]
    | Keyboard code state information =>
      rw [encodedRawStrokes_cons_ok rawKeyOfStroke
        (.Keyboard code state information) rest ⟨code, state, information⟩ rfl,
        List.map_cons, ih]
      simp [strokeOfRawKey, List.filter_cons, Stroke.isKeyStroke]

theorem length_encodedRaw_mouse (strokes : List Stroke) :
    (encodedRawStrokes rawMouseOfStroke strokes).length =
      strokes.countP Stroke.isMouseStroke := by
  rw [← List.length_map (encodedRawStrokes rawMouseOfStroke strokes) strokeOfRawMouse,
    encodedRaw_mouse_view, ← List.countP_eq_length_filter]

theorem length_encodedRaw_key (strokes : List Stroke) :
    (encodedRawStrokes rawKeyOfStroke strokes).length =
      strokes.countP Stroke.isKeyStroke := by
  rw [← List.length_map (encodedRawStrokes rawKeyOfStroke strokes) strokeOfRawKey,
    encodedRaw_key_view, ← List.countP_eq_length_filter]

/-! ### Claim theorems -/

/-- C1 counterexample: the native keyboard record with code 700 (a `u16` value
outside the known scan-code table), state 0 and information 0 decodes
successfully, but re-encoding yields the record with the fallback code
`Esc = 1`, not a record bit-identical to the input. So decode-then-encode is
not the identity for arbitrary `u16` code values. -/
theorem keyboard_roundtrip_fails_on_unknown_code :
    Stroke.tryFromKey ⟨700, 0, 0⟩ = .ok (.Keyboard 1 0 0) ∧
    keyRoundtrip ⟨700, 0, 0⟩ = .ok ⟨1, 0, 0⟩ ∧
    keyRoundtrip ⟨700, 0, 0⟩ ≠ .ok ⟨700, 0, 0⟩ :=
  ⟨by decide, by decide, by decide⟩

/-- C1 (amended): for every native mouse record whose state and flags bitmasks
contain only defined bits, and every native keyboard record whose state
bitmask contains only defined bits and whose code is in the known scan-code
table, decoding into a `Stroke` succeeds and re-encoding yields a record
bit-identical to the input. -/
theorem decode_encode_roundtrip (m : InterceptionMouseStroke)
    (k : InterceptionKeyStroke) (hmwf : m.wf) (hkwf : k.wf)
    (hs : m.state &&& u16Not MouseState.mask = 0)
    (hf : m.flags &&& u16Not MouseFlags.mask = 0)
    (hks : k.state &&& u16Not KeyState.mask = 0)
    (hkc : scanCodeKnown k.code = true) :
    mouseRoundtrip m = .ok m ∧ keyRoundtrip k = .ok k := by
  constructor
  · simp [mouseRoundtrip, Stroke.tryFromMouse, fromBits, hs, hf, rawMouseOfStroke,
      Except.bind]
  · simp [keyRoundtrip, Stroke.tryFromKey, fromBits, hks, ScanCode.tryFrom, hkc,
      rawKeyOfStroke, Except.bind]

theorem decode_encode_roundtrip_witness :
    scanCodeKnown 30 = true ∧
    mouseRoundtrip ⟨1025, 9, -3, 7, -9, 5⟩ = .ok ⟨1025, 9, -3, 7, -9, 5⟩ ∧
    keyRoundtrip ⟨30, 3, 11⟩ = .ok ⟨30, 3, 11⟩ :=
  ⟨by decide,
   (decode_encode_roundtrip ⟨1025, 9, -3, 7, -9, 5⟩ ⟨30, 3, 11⟩
     (by simp only [InterceptionMouseStroke.wf]; decide)
     (by simp only [InterceptionKeyStroke.wf]; decide)
     (by decide) (by decide) (by decide) (by decide)).1,
   (decode_encode_roundtrip ⟨1025, 9, -3, 7, -9, 5⟩ ⟨30, 3, 11⟩
     (by simp only [InterceptionMouseStroke.wf]; decide)
     (by simp only [InterceptionKeyStroke.wf]; decide)
     (by decide) (by decide) (by decide) (by decide)).2⟩

/-- C2: a native mouse record with at least one bit outside the defined
`MouseState` set in its state field, or outside the defined `MouseFlags` set in
its flags field, fails to decode with an error; likewise a native keyboard
record with a bit outside the defined `KeyState` set. Decoding is a total
function into `Except`, so no panic is possible. -/
theorem undefined_bits_fail_decode (m : InterceptionMouseStroke)
    (k : InterceptionKeyStroke) (hmwf : m.wf) (hkwf : k.wf) :
    ((m.state &&& u16Not MouseState.mask ≠ 0 ∨ m.flags &&& u16Not MouseFlags.mask ≠ 0) →
      ∃ e, Stroke.tryFromMouse m = .error e) ∧
    (k.state &&& u16Not KeyState.mask ≠ 0 → ∃ e, Stroke.tryFromKey k = .error e) := by
  constructor
  · rintro (h | h)
    · exact ⟨"Extra bits in raw mouse state", by simp [Stroke.tryFromMouse, fromBits, h]⟩
    · by_cases hs : m.state &&& u16Not MouseState.mask = 0
      · exact ⟨"Extra bits in raw mouse flags",
          by simp [Stroke.tryFromMouse, fromBits, hs, h]⟩
      · exact ⟨"Extra bits in raw mouse state",
          by simp [Stroke.tryFromMouse, fromBits, hs]⟩
  · intro h
    exact ⟨"Extra bits in raw keyboard state", by simp [Stroke.tryFromKey, fromBits, h]⟩

theorem undefined_bits_fail_decode_witness :
    (8192 : Nat) &&& u16Not MouseState.mask ≠ 0 ∧
    (4 : Nat) &&& u16Not KeyState.mask ≠ 0 ∧
    (∃ e, Stroke.tryFromMouse ⟨8192, 0, 0, 0, 0, 0⟩ = .error e) ∧
    (∃ e, Stroke.tryFromKey ⟨30, 4, 0⟩ = .error e) :=
  ⟨by decide, by decide,
   (undefined_bits_fail_decode ⟨8192, 0, 0, 0, 0, 0⟩ ⟨30, 4, 0⟩
     (by simp only [InterceptionMouseStroke.wf]; decide)
     (by simp only [InterceptionKeyStroke.wf]; decide)).1 (Or.inl (by decide)),
   (undefined_bits_fail_decode ⟨8192, 0, 0, 0, 0, 0⟩ ⟨30, 4, 0⟩
     (by simp only [InterceptionMouseStroke.wf]; decide)
     (by simp only [InterceptionKeyStroke.wf]; decide)).2 (by decide)⟩

/-- C6: for a native keyboard record whose state bitmask contains only defined
`KeyState` bits, decoding succeeds no matter what the code field holds; when
the code is not in the known scan-code table the resulting keyboard stroke
carries the fixed fallback `ScanCode::Esc`. Keyboard decode failure therefore
depends only on the state bitmask. -/
theorem keyboard_decode_code_total (k : InterceptionKeyStroke) (hkwf : k.wf)
    (hstate : k.state &&& u16Not KeyState.mask = 0) :
    (∃ st, Stroke.tryFromKey k = .ok st) ∧
    (scanCodeKnown k.code = false →
      Stroke.tryFromKey k = .ok (.Keyboard ScanCode.Esc k.state k.information)) := by
  constructor
  · by_cases hc : scanCodeKnown k.code
    · exact ⟨.Keyboard k.code k.state k.information,
        by simp [Stroke.tryFromKey, fromBits, ScanCode.tryFrom, hstate, hc]⟩
    · exact ⟨.Keyboard ScanCode.Esc k.state k.information,
        by simp [Stroke.tryFromKey, fromBits, ScanCode.tryFrom, hstate, hc]⟩
  · intro hc
    simp [Stroke.tryFromKey, fromBits, ScanCode.tryFrom, hstate, hc]

theorem keyboard_decode_code_total_witness :
    (2 : Nat) &&& u16Not KeyState.mask = 0 ∧ scanCodeKnown 60000 = false ∧
    Stroke.tryFromKey ⟨60000, 2, 7⟩ = .ok (.Keyboard ScanCode.Esc 2 7) :=
  ⟨by decide, by decide,
   (keyboard_decode_code_total ⟨60000, 2, 7⟩
     (by simp only [InterceptionKeyStroke.wf]; decide) (by decide)).2 (by decide)⟩

/-- C10: encoding a mouse stroke into a native mouse record always succeeds, and
decoding that record back yields the original stroke field-by-field — the
converse of the decode-then-encode property on the mouse class. The
hypotheses state the `MouseState`/`MouseFlags` type invariant of the Rust
bitflags values (safe code can only hold defined bits). -/
theorem mouse_encode_decode_identity (state flags : Nat) (rolling x y : Int)
    (information : Nat)
    (hs : state &&& u16Not MouseState.mask = 0)
    (hf : flags &&& u16Not MouseFlags.mask = 0) :
    (rawMouseOfStroke (.Mouse state flags rolling x y information)).bind
      Stroke.tryFromMouse = .ok (.Mouse state flags rolling x y information) := by
  simp [rawMouseOfStroke, Stroke.tryFromMouse, fromBits, hs, hf, Except.bind]

theorem mouse_encode_decode_identity_witness :
    (5 : Nat) &&& u16Not MouseState.mask = 0 ∧
    (rawMouseOfStroke (.Mouse 5 257 (-2) 100 (-200) 42)).bind Stroke.tryFromMouse =
      .ok (.Mouse 5 257 (-2) 100 (-200) 42) := by
  exact ⟨by decide, mouse_encode_decode_identity 5 257 (-2) 100 (-200) 42
    (by decide) (by decide)⟩

/-- C5: for a backing array of capacity C (a list of that length) and a length
L ≤ C, the bounded prefix view exists (no panic), has length exactly L, agrees
with the backing array on every index below L, and yields nothing at any index
≥ L. -/
theorem bounded_view_exposes_exactly_len (arr : List T) (len : Nat)
    (h : len ≤ arr.length) :
    ∃ view, prefixView arr len = some view ∧ view.length = len ∧
      (∀ i, i < len → view.get? i = arr.get? i) ∧
      (∀ i, len ≤ i → view.get? i = none) := by
  refine ⟨arr.take len, by simp [prefixView, h], by simp [List.length_take]; omega,
    ?_, ?_⟩
  · intro i hi
    exact List.get?_take hi
  · intro i hi
    apply List.get?_eq_none.2
    rw [List.length_take]
    omega

theorem bounded_view_exposes_exactly_len_witness :
    (2 : Nat) ≤ ([10, 20, 30, 40] : List Nat).length ∧
    (∃ view, prefixView ([10, 20, 30, 40] : List Nat) 2 = some view ∧
      view.length = 2 ∧
      (∀ i, i < 2 → view.get? i = ([10, 20, 30, 40] : List Nat).get? i) ∧
      (∀ i, 2 ≤ i → view.get? i = none)) :=
  ⟨by decide, bounded_view_exposes_exactly_len [10, 20, 30, 40] 2 (by decide)⟩

/-- C7: `get_filter` on a device classified invalid yields the empty key filter
(never the mouse variant), whatever the raw filter function reports; on a
valid device whose raw filter bits fall outside the defined set of its class,
it yields the empty filter of that class instead of failing. -/
theorem get_filter_defaults (env : Env) (device : Int) :
    (env.isInvalid device = true → getFilter env device = .KeyFilter 0) ∧
    (env.isInvalid device = false → env.isMouse device = true →
      fromBits MouseFilter.mask (env.nativeGetFilter device) = none →
      getFilter env device = .MouseFilter 0) ∧
    (env.isInvalid device = false → env.isMouse device = false →
      fromBits KeyFilter.mask (env.nativeGetFilter device) = none →
      getFilter env device = .KeyFilter 0) := by
  refine ⟨fun hinv => by simp [getFilter, hinv], fun hinv hm hbits => ?_, 
    fun hinv hm hbits => ?_⟩
  · simp [getFilter, hinv, hm, hbits]
  · simp [getFilter, hinv, hm, hbits]

theorem get_filter_defaults_witness :
    sampleEnv.isInvalid 0 = true ∧ getFilter sampleEnv 0 = .KeyFilter 0 ∧
    sampleEnv.isInvalid 2 = false ∧ sampleEnv.isMouse 2 = false ∧
    fromBits KeyFilter.mask (sampleEnv.nativeGetFilter 2) = none ∧
    getFilter sampleEnv 2 = .KeyFilter 0 :=
  ⟨by decide, (get_filter_defaults sampleEnv 0).1 (by decide),
   by decide, by decide, by decide,
   (get_filter_defaults sampleEnv 2).2.2 (by decide) (by decide) (by decide)⟩

/-- C8: a duration whose total millisecond count does not fit in `u32` makes
`wait_with_timeout` pass `u32::MAX` to the native wait; one that fits is
passed through exactly. -/
theorem wait_with_timeout_clamps (env : Env) (d : Duration) :
    (u32MAX < d.asMillis → waitWithTimeout env d = env.nativeWaitWithTimeout u32MAX) ∧
    (d.asMillis ≤ u32MAX → waitWithTimeout env d = env.nativeWaitWithTimeout d.asMillis) := by
  constructor
  · intro h
    have hn : ¬d.asMillis ≤ u32MAX := by omega
    simp [waitWithTimeout, timeoutMillis, hn]
  · intro h
    simp [waitWithTimeout, timeoutMillis, h]

theorem wait_with_timeout_clamps_witness :
    u32MAX < (Duration.mk 4294968 0).asMillis ∧
    waitWithTimeout sampleEnv ⟨4294968, 0⟩ = sampleEnv.nativeWaitWithTimeout u32MAX ∧
    (Duration.mk 2 500000000).asMillis ≤ u32MAX ∧
    waitWithTimeout sampleEnv ⟨2, 500000000⟩ = sampleEnv.nativeWaitWithTimeout 2500 :=
  ⟨by decide, (wait_with_timeout_clamps sampleEnv ⟨4294968, 0⟩).1 (by decide),
   by decide, (wait_with_timeout_clamps sampleEnv ⟨2, 500000000⟩).2 (by decide)⟩

/-- C3: `send` on a device of neither class returns 0 without touching the
native send. On a mouse (resp. keyboard) device, the record list passed to the
native send consists exactly of the matching-class strokes, encoded in their
original relative order with mismatching strokes skipped and no gaps, and the
call returns what the native send reports — so whenever the native send
reports the count it was given, the result is exactly the number of
matching-class strokes. -/
theorem send_dispatch_and_count (env : Env) (device : Int) (strokes : List Stroke) :
    (env.isMouse device = false → env.isKeyboard device = false →
      send env device strokes = 0) ∧
    (env.isMouse device = true →
      send env device strokes =
        env.nativeSendMouse device (encodedRawStrokes rawMouseOfStroke strokes) ∧
      (encodedRawStrokes rawMouseOfStroke strokes).map strokeOfRawMouse =
        strokes.filter Stroke.isMouseStroke ∧
      ((∀ dev raws, env.nativeSendMouse dev raws = (raws.length : Int)) →
        send env device strokes = (strokes.countP Stroke.isMouseStroke : Int))) ∧
    (env.isMouse device = false → env.isKeyboard device = true →
      send env device strokes =
        env.nativeSendKey device (encodedRawStrokes rawKeyOfStroke strokes) ∧
      (encodedRawStrokes rawKeyOfStroke strokes).map strokeOfRawKey =
        strokes.filter Stroke.isKeyStroke ∧
      ((∀ dev raws, env.nativeSendKey dev raws = (raws.length : Int)) →
        send env device strokes = (strokes.countP Stroke.isKeyStroke : Int))) := by
  refine ⟨fun hm hk => by simp [send, hm, hk],
    fun hm => ⟨by simp [send, hm], encodedRaw_mouse_view strokes, fun hecho => ?_⟩,
    fun hm hk => ⟨by simp [send, hm, hk], encodedRaw_key_view strokes, fun hecho => ?_⟩⟩
  · have h1 : send env device strokes =
        env.nativeSendMouse device (encodedRawStrokes rawMouseOfStroke strokes) := by
      simp [send, hm]
    rw [h1, hecho, length_encodedRaw_mouse]
  · have h1 : send env device strokes =
        env.nativeSendKey device (encodedRawStrokes rawKeyOfStroke strokes) := by
      simp [send, hm, hk]
    rw [h1, hecho, length_encodedRaw_key]

theorem send_dispatch_and_count_witness :
    sampleEnv.isMouse 1 = true ∧
    (∀ dev raws, sampleEnv.nativeSendMouse dev raws = (raws.length : Int)) ∧
    send sampleEnv 1
      [.Mouse 1 1 0 2 3 4, .Keyboard 30 0 1, .Mouse 2 0 (-1) 5 6 7, .Keyboard 99 1 3] =
      ((2 : Nat) : Int) :=
  ⟨by decide, fun dev raws => rfl,
   (send_dispatch_and_count sampleEnv 1
     [.Mouse 1 1 0 2 3 4, .Keyboard 30 0 1, .Mouse 2 0 (-1) 5 6 7, .Keyboard 99 1 3]).2.1
     (by decide) |>.2.2 (fun dev raws => rfl)⟩

/-- C4: `receive` on a device of neither class yields the empty bounded view.
On a mouse (resp. keyboard) device, provided the native receive respects the
capacity it was given, the returned view contains exactly the strokes decoded
from the well-formed records, compacted to the front of the caller's buffer in
their original relative order, with length equal to the number of records that
decoded successfully; malformed records are dropped. -/
theorem receive_decodes_and_compacts (env : Env) (device : Int) (buf : List Stroke) :
    (env.isMouse device = false → env.isKeyboard device = false →
      receive env device buf = []) ∧
    (env.isMouse device = true →
      (env.nativeReceiveMouse device buf.length).length ≤ buf.length →
      receive env device buf =
        decodedStrokes Stroke.tryFromMouse (env.nativeReceiveMouse device buf.length) ∧
      (receive env device buf).length =
        (env.nativeReceiveMouse device buf.length).countP
          (fun r => (Stroke.tryFromMouse r).toOption.isSome)) ∧
    (env.isMouse device = false → env.isKeyboard device = true →
      (env.nativeReceiveKey device buf.length).length ≤ buf.length →
      receive env device buf =
        decodedStrokes Stroke.tryFromKey (env.nativeReceiveKey device buf.length) ∧
      (receive env device buf).length =
        (env.nativeReceiveKey device buf.length).countP
          (fun r => (Stroke.tryFromKey r).toOption.isSome)) := by
  refine ⟨fun hm hk => by simp [receive, hm, hk], fun hm hcap => ?_, fun hm hk hcap => ?_⟩
  · have hb : 0 + (decodedStrokes Stroke.tryFromMouse
        (env.nativeReceiveMouse device buf.length)).length ≤ buf.length := by
      have hle := List.length_filterMap_le
        (fun r => (Stroke.tryFromMouse r).toOption) (env.nativeReceiveMouse device buf.length)
      simp only [decodedStrokes, Nat.zero_add]
      omega
    have hspec := receiveLoop_spec Stroke.tryFromMouse
      (env.nativeReceiveMouse device buf.length) buf 0 hb
    have hrecv : receive env device buf =
        (receiveLoop Stroke.tryFromMouse (env.nativeReceiveMouse device buf.length)
          buf 0).1.take
        (receiveLoop Stroke.tryFromMouse (env.nativeReceiveMouse device buf.length)
          buf 0).2 := by
      simp [receive, hm]
    have hmain : receive env device buf =
        decodedStrokes Stroke.tryFromMouse (env.nativeReceiveMouse device buf.length) := by
      rw [hrecv, hspec.2]
      simp
    exact ⟨hmain, by rw [hmain, length_decodedStrokes]⟩
  · have hb : 0 + (decodedStrokes Stroke.tryFromKey
        (env.nativeReceiveKey device buf.length)).length ≤ buf.length := by
      have hle := List.length_filterMap_le
        (fun r => (Stroke.tryFromKey r).toOption) (env.nativeReceiveKey device buf.length)
      simp only [decodedStrokes, Nat.zero_add]
      omega
    have hspec := receiveLoop_spec Stroke.tryFromKey
      (env.nativeReceiveKey device buf.length) buf 0 hb
    have hrecv : receive env device buf =
        (receiveLoop Stroke.tryFromKey (env.nativeReceiveKey device buf.length)
          buf 0).1.take
        (receiveLoop Stroke.tryFromKey (env.nativeReceiveKey device buf.length)
          buf 0).2 := by
      simp [receive, hm, hk]
    have hmain : receive env device buf =
        decodedStrokes Stroke.tryFromKey (env.nativeReceiveKey device buf.length) := by
      rw [hrecv, hspec.2]
      simp
    exact ⟨hmain, by rw [hmain, length_decodedStrokes]⟩

theorem receive_decodes_and_compacts_witness :
    sampleEnv.isMouse 2 = false ∧ sampleEnv.isKeyboard 2 = true ∧
    (sampleEnv.nativeReceiveKey 2 4).length ≤ 4 ∧
    receive sampleEnv 2 (List.replicate 4 (.Keyboard 0 0 0)) =
      [.Keyboard 30 0 1, .Keyboard ScanCode.Esc 1 3] :=
  ⟨by decide, by decide, by decide, by
    have h := (receive_decodes_and_compacts sampleEnv 2
      (List.replicate 4 (.Keyboard 0 0 0))).2.2 (by decide) (by decide) (by decide)
    rw [h.1]
    decide⟩

/-- C9: `get_hardware_id` yields no identifier when the native query reports
zero bytes; when it reports a positive byte count N (within the 1024-byte
buffer it was given), it yields the UTF-16 decoding of the first N/2 code
units with every ill-formed unit replaced by U+FFFD, and the resulting text
occupies exactly N/2 UTF-16 code units. -/
theorem hardware_id_decoding (env : Env) (device : Int)
    (hbuf : (env.hardwareIdUnits device).length = 512)
    (hbound : ∀ u ∈ env.hardwareIdUnits device, u < 65536)
    (hlen : env.hardwareIdLen device ≤ 1024) :
    (env.hardwareIdLen device = 0 → getHardwareId env device = none) ∧
    (0 < env.hardwareIdLen device →
      getHardwareId env device =
        some ((decodeUtf16 ((env.hardwareIdUnits device).take
          (env.hardwareIdLen device / 2))).map replaceIllFormed) ∧
      utf16StrLen ((decodeUtf16 ((env.hardwareIdUnits device).take
          (env.hardwareIdLen device / 2))).map replaceIllFormed) =
        env.hardwareIdLen device / 2) := by
  constructor
  · intro h
    simp [getHardwareId, h]
  · intro h
    have hne : ¬env.hardwareIdLen device = 0 := by omega
    refine ⟨by simp [getHardwareId, hne], ?_⟩
    rw [utf16StrLen_decodeUtf16 _ (fun u hu => hbound u (List.mem_of_mem_take hu)),
      List.length_take, hbuf]
    omega

set_option maxRecDepth 100000 in
theorem hardware_id_decoding_witness :
    sampleEnv.hardwareIdLen 1 = 0 ∧ getHardwareId sampleEnv 1 = none ∧
    0 < sampleEnv.hardwareIdLen 2 ∧
    getHardwareId sampleEnv 2 = some [72, 0x1D11E, 0xFFFD, 33] ∧
    utf16StrLen [72, 0x1D11E, 0xFFFD, 33] = 5 :=
  ⟨by decide,
   (hardware_id_decoding sampleEnv 1 (by decide) (by decide) (by decide)).1 (by decide),
   by decide,
   by
    have h := (hardware_id_decoding sampleEnv 2 (by decide) (by decide) (by decide)).2
      (by decide)
    rw [h.1]
    decide,
   by decide⟩
